import Mathlib

/-!
Verification of the job-application backend (`main.py`).

The Python program is shallowly embedded in Lean:

* The tabular log file handled by `append_to_excel` is modelled as the
  list of its stored rows, each row a list of cells, a cell being
  `Option String` (`none` = empty/absent cell, as `openpyxl` reports
  `None`).  A file on disk is either a workbook that loads successfully
  (`ExcelContent.wb`) or raw bytes on which `load_workbook` raises
  (`InvalidFileException` / `BadZipFile` / `KeyError` / `OSError`),
  modelled as `ExcelContent.invalid`.
* Appending a row to a loaded worksheet (`ws.append`) places the new row
  after all stored rows (openpyxl's `_current_row` equals the highest
  stored row index after loading), i.e. list append.
* `pathlib.Path.suffix`, `Path.with_suffix` and `os.path.basename` are
  embedded character by character over the string.
* The network call inside `verify_recaptcha` is modelled by an explicit
  parameter: `none` stands for any exception raised during the request
  or while parsing the response, `some (success, score)` for a parsed
  JSON response (`success` the truthiness of `data.get("success")`,
  `score` the float value `float(data.get("score", 0.0))` as a rational).
* The `apply` handler is a function from the parsed form to an
  `ApplyResult` recording the HTTP status, the JSON message, the file
  written to the upload directory (if any) and the record passed to
  `append_to_excel` (if any).
-/

namespace Kedorion

/-! ## Path helpers (`pathlib.Path.suffix`, `Path.with_suffix`, `os.path.basename`) -/

/-- `pathlib.Path(p).name`: the final path component, ignoring trailing
slashes (`Path("a/b/").name = "b"`, `Path("/").name = ""`). -/
def pathName (p : String) : String :=
  String.mk ((((p.data.reverse).dropWhile (fun c => c == '/')).takeWhile
    (fun c => c != '/')).reverse)

/-- `Path.suffix` restricted to a bare file name `name`: the part of
`name` from its last dot on, provided that dot is neither the first nor
the last character; `""` otherwise.  (CPython: `i = name.rfind('.');
return name[i:] if 0 < i < len(name) - 1 else ''`.) -/
def suffixOfName (name : String) : String :=
  if (name.data.reverse).dropWhile (fun c => c != '.') = []
      ∨ (name.data.reverse).takeWhile (fun c => c != '.') = []
      ∨ ((name.data.reverse).dropWhile (fun c => c != '.')).length = 1
  then ""
  else String.mk ('.' :: ((name.data.reverse).takeWhile
    (fun c => c != '.')).reverse)

/-- `pathlib.Path(p).suffix`. -/
def pySuffix (p : String) : String := suffixOfName (pathName p)

/-- `pathlib.Path(p).with_suffix(s)` for a path that is a bare file
name: drop the current suffix and append `s`. -/
def pyWithSuffix (p s : String) : String :=
  p.dropRight (pySuffix p).length ++ s

/-- `os.path.basename(p)`: everything after the last `/`
(`basename "a/" = ""`, unlike `Path.name`). -/
def osBasename (p : String) : String :=
  String.mk ((p.data.reverse.takeWhile (fun c => c != '/')).reverse)

/-- `str.lower()` (ASCII case folding, as needed for file suffixes). -/
def pyLower (s : String) : String := String.mk (s.data.map Char.toLower)

/-- `str.strip()`: drop leading and trailing whitespace. -/
def pyStrip (s : String) : String :=
  String.mk (((s.data.dropWhile Char.isWhitespace).reverse.dropWhile
    Char.isWhitespace).reverse)

/-! ## The tabular log store (`append_to_excel`, `_new_wb_with_header`) -/

/-- One worksheet cell; `none` is an empty / absent cell. -/
abbrev Cell := Option String

/-- A worksheet: the list of its stored rows. -/
abbrev Rows := List (List Cell)

/-- Content of a file opened by `load_workbook`: either a valid workbook
with its stored rows, or content on which loading raises
(invalid file / corrupted archive / key or OS error while reading). -/
inductive ExcelContent where
  | wb (rows : Rows)
  | invalid (bytes : List Nat)
deriving DecidableEq

/-- The persistent state touched by `append_to_excel`: the content at
`EXCEL_PATH` and the content at the backup path
`EXCEL_PATH.with_suffix(".bad.xlsx")` (`none` = no file). -/
structure Storage where
  logFile : Option ExcelContent
  backupFile : Option ExcelContent
deriving DecidableEq

/-- `_new_wb_with_header(keys)`: a fresh workbook whose single row is
the header built from `keys`. -/
def new_wb_with_header (keys : List String) : Rows :=
  [keys.map some]

/-- `ws.max_row` of a loaded worksheet (openpyxl reports at least 1). -/
def wsMaxRow (rows : Rows) : Nat := max 1 rows.length

/-- `ws["A1"].value` of a loaded worksheet. -/
def wsA1 (rows : Rows) : Option String :=
  (rows.head?.bind List.head?).join

/-- The data row `[row[k] for k in keys]` appended for a record:
the record's values, in the record's key order (the record is a Python
`dict`, so keys are distinct and values line up with `list(row.keys())`). -/
def dataRowOf (row : List (String × String)) : List Cell :=
  row.map (fun kv => some kv.2)

/-- `append_to_excel(row)` from `main.py`.  `renameOk` models whether the
best-effort `EXCEL_PATH.rename(backup)` succeeds (its failure is
swallowed by `except Exception: pass`).  The dead fallback
`if wb is None or ws is None` in the source is unreachable in this
model (every branch produces a workbook) and is not represented. -/
def append_to_excel (row : List (String × String)) (renameOk : Bool)
    (st : Storage) : Storage :=
  let keys := row.map Prod.fst
  match st.logFile with
  | some (.wb rows0) =>
      -- load succeeded: add the header if the sheet looks empty/headerless
      let rows1 := if wsMaxRow rows0 = 1 ∧ wsA1 rows0 = none
        then rows0 ++ [keys.map some] else rows0
      { st with logFile := some (.wb (rows1 ++ [dataRowOf row])) }
  | some (.invalid b) =>
      -- load raised: move the damaged file aside (best effort), start fresh
      let st1 := if renameOk
        then { st with backupFile := some (.invalid b) } else st
      { st1 with
        logFile := some (.wb (new_wb_with_header keys ++ [dataRowOf row])) }
  | none =>
      { st with
        logFile := some (.wb (new_wb_with_header keys ++ [dataRowOf row])) }

/-! ## reCAPTCHA verification (`verify_recaptcha`) -/

/-- `verify_recaptcha(token)` from `main.py`.  `secret` is
`RECAPTCHA_SECRET`; `resp` models the outcome of the network call:
`none` if any exception is raised during the request or while parsing,
`some (success, score)` for a parsed response. -/
def verify_recaptcha (secret token : String)
    (resp : Option (Bool × ℚ)) : Bool :=
  if secret = "" ∨ token = "" then true
  else
    match resp with
    | none => false
    | some (success, score) => success && decide ((0.4 : ℚ) ≤ score)

/-! ## The `/apply` handler -/

/-- `MAX_UPLOAD_MB` default (env `MAX_UPLOAD_MB` unset). -/
def MAX_UPLOAD_MB : Nat := 15

/-- `ALLOWED_EXTENSIONS = {".pdf", ".doc", ".docx"}`. -/
def ALLOWED_EXTENSIONS : List String := [".pdf", ".doc", ".docx"]

/-- The uploaded résumé: its original filename and its bytes. -/
structure UploadFile where
  filename : String
  content : List Nat
deriving DecidableEq

/-- The parsed multipart form.  `fields` are the text-valued entries
(`form.get` on Starlette's multidict returns the last value for a key);
`resume` is the uploaded file, `none` when absent (or sent as a plain
text field, on which `getattr(resume, "filename", "")` is also empty);
`expertise` is `form.getlist("expertise[]")`. -/
structure Form where
  fields : List (String × String)
  resume : Option UploadFile
  expertise : List String
deriving DecidableEq

/-- `form.get(k)`: last value bound to `k`, `none` if absent. -/
def formGet (fields : List (String × String)) (k : String) : Option String :=
  (fields.reverse.find? (fun kv => kv.1 == k)).map Prod.snd

/-- Observable outcome of one `apply` call: HTTP status, JSON `message`,
the file written into `UPLOAD_DIR` (sanitized name and bytes), and the
record handed to `append_to_excel` — `none` meaning no write happened. -/
structure ApplyResult where
  status : Nat
  message : String
  saved : Option (String × List Nat)
  logged : Option (List (String × String))
deriving DecidableEq

/-- A 400 rejection: no file write, no log write. -/
def mkReject (msg : String) : ApplyResult :=
  { status := 400, message := msg, saved := none, logged := none }

/-- `required = ["name", "email", "phone", "location", "start_date", "visa"]`. -/
def requiredFields : List String :=
  ["name", "email", "phone", "location", "start_date", "visa"]

/-- The `missing` list computed by `apply`: required fields whose value
is absent or `""` (Python falsy), then the literal `"resume"` when the
file is absent or its filename empty. -/
def missingOf (form : Form) : List String :=
  (requiredFields.filter (fun k => (formGet form.fields k).getD "" == "")) ++
  (match form.resume with
   | none => ["resume"]
   | some f => if f.filename = "" then ["resume"] else [])

/-- The missing-fields rejection response. -/
def missingResponse (missing : List String) : ApplyResult :=
  mkReject ("Missing fields: " ++ String.intercalate ", " missing)

/-- Lines 143–161: build the record logged for an accepted submission
(`ts` models `datetime.utcnow().isoformat(timespec="seconds") + "Z"`). -/
def buildRecord (ts : String) (form : Form) (safeName : String) :
    List (String × String) :=
  [("timestamp", ts),
   ("name", (formGet form.fields "name").getD ""),
   ("email", (formGet form.fields "email").getD ""),
   ("phone", (formGet form.fields "phone").getD ""),
   ("location", (formGet form.fields "location").getD ""),
   ("start_date", (formGet form.fields "start_date").getD ""),
   ("visa", (formGet form.fields "visa").getD ""),
   ("expertise", String.intercalate ", " form.expertise),
   ("links", pyStrip ((formGet form.fields "links").getD "")),
   ("why_kedorion", pyStrip ((formGet form.fields "info").getD "")),
   ("resume_filename", safeName)]

/-- Lines 138–164: sanitize the filename, write the bytes, log, succeed. -/
def applyPersist (ts : String) (form : Form) (resume : UploadFile) :
    ApplyResult :=
  let safeName := osBasename resume.filename
  { status := 200
    message := "Application received. Thank you!"
    saved := some (safeName, resume.content)
    logged := some (buildRecord ts form safeName) }

/-- Lines 134–136: the extension allow-list check. -/
def applyExtCheck (ts : String) (form : Form) (resume : UploadFile) :
    ApplyResult :=
  let ext := pyLower (pySuffix resume.filename)
  if ext ∈ ALLOWED_EXTENSIONS then applyPersist ts form resume
  else mkReject "Unsupported file type. Please upload PDF/DOC/DOCX."

/-- Lines 130–132: the size ceiling check, then the extension check. -/
def applySizeCheck (maxUploadMB : Nat) (ts : String) (form : Form)
    (resume : UploadFile) : ApplyResult :=
  if resume.content.length > maxUploadMB * 1024 * 1024 then
    mkReject ("File too large (>" ++ toString maxUploadMB ++ "MB).")
  else applyExtCheck ts form resume

/-- The `POST /apply` handler (lines 111–164).  `secret` is
`RECAPTCHA_SECRET`, `maxUploadMB` is `MAX_UPLOAD_MB`, `resp` models the
reCAPTCHA network call as in `verify_recaptcha`, `ts` the timestamp.
In the source the missing-fields check is one early return on the
`missing` list; here it is split on `form.resume` first, which yields
the same response because an absent/empty résumé puts `"resume"` into
`missingOf form`, making it non-empty. -/
def apply (secret : String) (maxUploadMB : Nat) (resp : Option (Bool × ℚ))
    (ts : String) (form : Form) : ApplyResult :=
  match form.resume with
  | none => missingResponse (missingOf form)
  | some resume =>
    if resume.filename = "" then missingResponse (missingOf form)
    else if (missingOf form).isEmpty then
      if verify_recaptcha secret
          ((formGet form.fields "recaptcha_token").getD "") resp then
        applySizeCheck maxUploadMB ts form resume
      else mkReject "reCAPTCHA verification failed."
    else missingResponse (missingOf form)

/-! ## Concrete sample data (used by witnesses) -/

/-- A valid sample field set (all required fields non-empty). -/
def sampleFields : List (String × String) :=
  [("name", "Ana"), ("email", "a@x.com"), ("phone", "123"),
   ("location", "Berlin"), ("start_date", "2024-01-01"), ("visa", "yes")]

/-- A valid form around a given résumé upload. -/
def formWith (r : UploadFile) : Form :=
  { fields := sampleFields, resume := some r, expertise := [] }

/-! ## Claims about the tabular log store -/

/-- Claim C2: when the log file does not exist, `append_to_excel`
creates it; the saved file's first row is the record's ordered key list
(the header) and its second row is the record's values in that same key
order, with no other rows.  The backup file is untouched. -/
theorem append_creates_new_file (row : List (String × String))
    (renameOk : Bool) (st : Storage) (h : st.logFile = none) :
    (append_to_excel row renameOk st).logFile
      = some (.wb [(row.map Prod.fst).map some, dataRowOf row]) ∧
    (append_to_excel row renameOk st).backupFile = st.backupFile := by
  obtain ⟨lf, bf⟩ := st
  simp only [Storage.logFile] at h
  subst h
  simp [append_to_excel, new_wb_with_header]

theorem append_creates_new_file_witness :
    (append_to_excel [("a", "1"), ("b", "2")] true ⟨none, none⟩).logFile
      = some (.wb [[some "a", some "b"], [some "1", some "2"]]) ∧
    (append_to_excel [("a", "1"), ("b", "2")] true ⟨none, none⟩).backupFile
      = none :=
  append_creates_new_file [("a", "1"), ("b", "2")] true ⟨none, none⟩ rfl

/-- Claim C3: appending to a well-formed existing log (a header row
whose first cell is present, followed by `N` data rows) keeps the
header row and the `N` data rows unchanged (in the embedding: the
stored rows, hence their cell contents, are preserved verbatim) and
adds exactly one row at the end holding the record's values in the
record's key order, so the file has `N + 1` data rows. -/
theorem append_appends_one_row (row : List (String × String))
    (renameOk : Bool) (hdr : List Cell) (data : Rows) (v : String)
    (bk : Option ExcelContent) (h1 : hdr.head? = some (some v)) :
    append_to_excel row renameOk ⟨some (.wb (hdr :: data)), bk⟩
      = ⟨some (.wb (hdr :: (data ++ [dataRowOf row]))), bk⟩ ∧
    (data ++ [dataRowOf row]).length = data.length + 1 := by
  refine ⟨?_, by simp⟩
  simp [append_to_excel, wsA1, h1]

theorem append_appends_one_row_witness :
    append_to_excel [("a", "1"), ("b", "2")] true
      ⟨some (.wb [[some "a", some "b"], [some "x", some "y"]]), none⟩
      = ⟨some (.wb [[some "a", some "b"], [some "x", some "y"],
          [some "1", some "2"]]), none⟩ :=
  (append_appends_one_row [("a", "1"), ("b", "2")] true
    [some "a", some "b"] [[some "x", some "y"]] "a" none rfl).1

/-- Claim C1: when the log file exists but fails to load (invalid file,
corrupted archive, key/OS error), `append_to_excel` renames it to the
backup path — the log path with its `.xlsx` extension replaced by the
`.bad.xlsx` variant — ignoring rename failure, and saves a brand-new
file holding exactly the header built from the record's keys plus one
data row; no rows of the corrupted file are merged. -/
theorem append_recovers_corrupt_log (row : List (String × String))
    (b : List Nat) (st : Storage) (renameOk : Bool)
    (h : st.logFile = some (.invalid b)) :
    (append_to_excel row renameOk st).logFile
      = some (.wb [(row.map Prod.fst).map some, dataRowOf row]) ∧
    (renameOk = true →
      (append_to_excel row renameOk st).backupFile = some (.invalid b)) ∧
    (renameOk = false →
      (append_to_excel row renameOk st).backupFile = st.backupFile) ∧
    pyWithSuffix "applications.xlsx" ".bad.xlsx" = "applications.bad.xlsx" := by
  obtain ⟨lf, bf⟩ := st
  simp only [Storage.logFile] at h
  subst h
  refine ⟨?_, ?_, ?_, by decide⟩ <;>
    cases renameOk <;>
      simp [append_to_excel, new_wb_with_header]

theorem append_recovers_corrupt_log_witness :
    (append_to_excel [("a", "1"), ("b", "2")] true
      ⟨some (.invalid [0, 1]), none⟩).logFile
      = some (.wb [[some "a", some "b"], [some "1", some "2"]]) ∧
    (append_to_excel [("a", "1"), ("b", "2")] true
      ⟨some (.invalid [0, 1]), none⟩).backupFile = some (.invalid [0, 1]) :=
  ⟨(append_recovers_corrupt_log [("a", "1"), ("b", "2")] [0, 1]
      ⟨some (.invalid [0, 1]), none⟩ true rfl).1,
   (append_recovers_corrupt_log [("a", "1"), ("b", "2")] [0, 1]
      ⟨some (.invalid [0, 1]), none⟩ true rfl).2.1 rfl⟩

/-- Claim C8 fails as stated: a log file whose single stored row has an
empty first cell but a non-empty second cell (`ws.max_row = 1`,
`ws["A1"].value is None`) does not end up as «header row followed by
the data row» — the junk row survives in front of them. -/
theorem header_rewrite_counterexample :
    (append_to_excel [("k", "v")] true
      ⟨some (.wb [[none, some "x"]]), none⟩).logFile
      ≠ some (.wb [[some "k"], [some "v"]]) := by decide

/-- Claim C8 amended: when the loaded file has exactly one stored row
whose first cell is empty/absent, the header is appended after that
row, so the saved file is the old row, then the header row, then the
new data row — the file ends with a well-formed header + data pair but
keeps the old row in front.  Only when the loaded file has no stored
row at all (an empty sheet, for which openpyxl also reports
`max_row = 1` and `A1 = None`) is the result exactly header + one data
row. -/
theorem header_added_after_existing_row (row : List (String × String))
    (renameOk : Bool) (r : List Cell) (bk : Option ExcelContent)
    (h : r.head?.join = none) :
    (append_to_excel row renameOk ⟨some (.wb [r]), bk⟩).logFile
      = some (.wb [r, (row.map Prod.fst).map some, dataRowOf row]) ∧
    (append_to_excel row renameOk ⟨some (.wb []), bk⟩).logFile
      = some (.wb [(row.map Prod.fst).map some, dataRowOf row]) := by
  constructor
  · have h1 : wsMaxRow [r] = 1 := rfl
    have h2 : wsA1 [r] = none := by simpa [wsA1] using h
    simp [append_to_excel, h1, h2]
  · simp [append_to_excel, wsA1, wsMaxRow]

theorem header_added_after_existing_row_witness :
    (append_to_excel [("k", "v")] true
      ⟨some (.wb [[none, some "x"]]), none⟩).logFile
      = some (.wb [[none, some "x"], [some "k"], [some "v"]]) :=
  (header_added_after_existing_row [("k", "v")] true [none, some "x"]
    none rfl).1

/-! ## Claims about `verify_recaptcha` -/

/-- Claim C5: verification trivially succeeds when no secret is
configured or no token was supplied; otherwise it succeeds exactly when
the response reports success and the score is at least 0.4, and any
exception during the call or parsing (`resp = none`) yields `false`
rather than propagating. -/
theorem verify_recaptcha_spec (secret token : String)
    (resp : Option (Bool × ℚ)) :
    ((secret = "" ∨ token = "") → verify_recaptcha secret token resp = true) ∧
    (secret ≠ "" → token ≠ "" → resp = none →
      verify_recaptcha secret token resp = false) ∧
    (∀ success score, secret ≠ "" → token ≠ "" →
      resp = some (success, score) →
      (verify_recaptcha secret token resp = true ↔
        (success = true ∧ (0.4 : ℚ) ≤ score))) := by
  refine ⟨?_, ?_, ?_⟩
  · intro h
    unfold verify_recaptcha
    rw [if_pos h]
  · intro hs ht hr
    subst hr
    unfold verify_recaptcha
    rw [if_neg (by simp [hs, ht])]
  · intro success score hs ht hr
    subst hr
    unfold verify_recaptcha
    rw [if_neg (by simp [hs, ht])]
    simp [Bool.and_eq_true, decide_eq_true_eq]

theorem verify_recaptcha_spec_witness :
    verify_recaptcha "" "tok" none = true ∧
    verify_recaptcha "sec" "" none = true ∧
    verify_recaptcha "sec" "tok" none = false ∧
    verify_recaptcha "sec" "tok" (some (true, 1/2)) = true ∧
    verify_recaptcha "sec" "tok" (some (true, 1/4)) = false ∧
    verify_recaptcha "sec" "tok" (some (false, 1)) = false := by
  refine ⟨?_, ?_, ?_, ?_, ?_, ?_⟩
  · exact (verify_recaptcha_spec "" "tok" none).1 (Or.inl rfl)
  · exact (verify_recaptcha_spec "sec" "" none).1 (Or.inr rfl)
  · exact (verify_recaptcha_spec "sec" "tok" none).2.1
      (by decide) (by decide) rfl
  · exact ((verify_recaptcha_spec "sec" "tok" (some (true, 1/2))).2.2
      true (1/2) (by decide) (by decide) rfl).mpr ⟨rfl, by norm_num⟩
  · have h := (verify_recaptcha_spec "sec" "tok" (some (true, 1/4))).2.2
      true (1/4) (by decide) (by decide) rfl
    rw [Bool.eq_false_iff]
    intro hv
    have := (h.mp hv).2
    norm_num at this
  · have h := (verify_recaptcha_spec "sec" "tok" (some (false, 1))).2.2
      false 1 (by decide) (by decide) rfl
    rw [Bool.eq_false_iff]
    intro hv
    exact Bool.false_ne_true (h.mp hv).1

/-! ## Claims about the `/apply` handler -/

/-- Characterization of the `missing` list: exactly the required fields
whose value is absent or empty, plus the literal `"resume"` when the
file is absent or its filename is empty.  (Helper, shared by several
claims.) -/
theorem mem_missingOf (form : Form) (k : String) :
    k ∈ missingOf form ↔
      ((k ∈ requiredFields ∧ (formGet form.fields k).getD "" = "") ∨
       (k = "resume" ∧ (form.resume = none ∨
         ∃ f, form.resume = some f ∧ f.filename = ""))) := by
  rcases hres : form.resume with _ | f
  · simp [missingOf, hres, List.mem_filter, beq_iff_eq]
  · by_cases hf : f.filename = ""
    · simp [missingOf, hres, hf, List.mem_filter, beq_iff_eq]
    · simp [missingOf, hres, hf, List.mem_filter, beq_iff_eq]

/-- Claim C4: when at least one required field is absent/empty or the
résumé is absent or has an empty filename, `apply` answers HTTP 400
whose message is exactly the comma-joined list of the missing field
names (with the literal `resume` for the file), and neither writes an
upload file nor appends a log row.  The final conjunct pins down that
`missingOf form` contains exactly the missing names. -/
theorem missing_fields_rejection (secret : String) (maxUploadMB : Nat)
    (resp : Option (Bool × ℚ)) (ts : String) (form : Form)
    (h : missingOf form ≠ []) :
    (apply secret maxUploadMB resp ts form).status = 400 ∧
    (apply secret maxUploadMB resp ts form).message
      = "Missing fields: " ++ String.intercalate ", " (missingOf form) ∧
    (apply secret maxUploadMB resp ts form).saved = none ∧
    (apply secret maxUploadMB resp ts form).logged = none ∧
    (∀ k, k ∈ missingOf form ↔
      ((k ∈ requiredFields ∧ (formGet form.fields k).getD "" = "") ∨
       (k = "resume" ∧ (form.resume = none ∨
         ∃ f, form.resume = some f ∧ f.filename = "")))) := by
  have happly : apply secret maxUploadMB resp ts form
      = missingResponse (missingOf form) := by
    rcases hres : form.resume with _ | f
    · simp [apply, hres]
    · by_cases hf : f.filename = ""
      · simp [apply, hres, hf]
      · rcases hl : missingOf form with _ | ⟨a, l⟩
        · exact absurd hl h
        · simp [apply, hres, hf, hl]

  rw [happly]
  exact ⟨rfl, rfl, rfl, rfl, fun k => mem_missingOf form k⟩

theorem missing_fields_rejection_witness :
    (apply "" 15 none "ts"
      ⟨[("email", "a@x.com")], none, []⟩).status = 400 ∧
    (apply "" 15 none "ts" ⟨[("email", "a@x.com")], none, []⟩).message
      = "Missing fields: name, phone, location, start_date, visa, resume" ∧
    (apply "" 15 none "ts" ⟨[("email", "a@x.com")], none, []⟩).saved
      = none ∧
    (apply "" 15 none "ts" ⟨[("email", "a@x.com")], none, []⟩).logged
      = none := by
  have h := missing_fields_rejection "" 15 none "ts"
    ⟨[("email", "a@x.com")], none, []⟩ (by decide)
  exact ⟨h.1, h.2.1.trans (by decide), h.2.2.1, h.2.2.2.1⟩

/-- Stepping helper: with no missing field and successful verification,
`apply` reaches the size check (shared by several claims). -/
theorem apply_valid_step (secret : String) (maxUploadMB : Nat)
    (resp : Option (Bool × ℚ)) (ts : String) (form : Form)
    (resume : UploadFile) (hr : form.resume = some resume)
    (hm : missingOf form = [])
    (hv : verify_recaptcha secret
      ((formGet form.fields "recaptcha_token").getD "") resp = true) :
    apply secret maxUploadMB resp ts form
      = applySizeCheck maxUploadMB ts form resume := by
  have hf : ¬ resume.filename = "" := by
    intro he
    have hmem : "resume" ∈ missingOf form := by
      simp [missingOf, hr, he]
    rw [hm] at hmem
    exact absurd hmem (List.not_mem_nil _)
  simp [apply, hr, hf, hm, hv]

/-- Claim C6: an upload strictly larger than `maxUploadMB * 2^20` bytes
is rejected with HTTP 400, a message carrying the configured limit, and
no file or log write; an upload at or below the ceiling passes this
check (the call proceeds to the extension check).  The default ceiling
is 15 MB. -/
theorem oversize_rejection (secret : String) (maxUploadMB : Nat)
    (resp : Option (Bool × ℚ)) (ts : String) (form : Form)
    (resume : UploadFile) (hr : form.resume = some resume)
    (hm : missingOf form = [])
    (hv : verify_recaptcha secret
      ((formGet form.fields "recaptcha_token").getD "") resp = true) :
    (resume.content.length > maxUploadMB * 1024 * 1024 →
      apply secret maxUploadMB resp ts form
        = mkReject ("File too large (>" ++ toString maxUploadMB ++ "MB).")) ∧
    (resume.content.length ≤ maxUploadMB * 1024 * 1024 →
      apply secret maxUploadMB resp ts form = applyExtCheck ts form resume) ∧
    MAX_UPLOAD_MB = 15 ∧ 1024 * 1024 = 2 ^ 20 := by
  rw [apply_valid_step secret maxUploadMB resp ts form resume hr hm hv]
  refine ⟨?_, ?_, rfl, by norm_num⟩
  · intro hgt
    simp [applySizeCheck, hgt]
  · intro hle
    simp [applySizeCheck, Nat.not_lt.mpr hle]

theorem oversize_rejection_witness :
    apply "" 0 none "ts" (formWith ⟨"cv.pdf", [1]⟩)
      = mkReject "File too large (>0MB)." ∧
    apply "" 15 none "ts" (formWith ⟨"cv.pdf", [1]⟩)
      = applyExtCheck "ts" (formWith ⟨"cv.pdf", [1]⟩) ⟨"cv.pdf", [1]⟩ := by
  constructor
  · exact (oversize_rejection "" 0 none "ts" (formWith ⟨"cv.pdf", [1]⟩)
      ⟨"cv.pdf", [1]⟩ rfl (by decide) (by decide)).1 (by decide)
  · exact (oversize_rejection "" 15 none "ts" (formWith ⟨"cv.pdf", [1]⟩)
      ⟨"cv.pdf", [1]⟩ rfl (by decide) (by decide)).2.1 (by decide)

/-- Claim C7: an upload whose filename's lowercased final suffix is not
one of `.pdf`, `.doc`, `.docx` is rejected with HTTP 400, the
unsupported-type message, and no file or log write; an allowed suffix
passes the check, and the comparison is case-insensitive (`.PDF` lowers
to `.pdf`, which is allowed). -/
theorem bad_extension_rejection (secret : String) (maxUploadMB : Nat)
    (resp : Option (Bool × ℚ)) (ts : String) (form : Form)
    (resume : UploadFile) (hr : form.resume = some resume)
    (hm : missingOf form = [])
    (hv : verify_recaptcha secret
      ((formGet form.fields "recaptcha_token").getD "") resp = true)
    (hs : resume.content.length ≤ maxUploadMB * 1024 * 1024) :
    (pyLower (pySuffix resume.filename) ∉ ALLOWED_EXTENSIONS →
      apply secret maxUploadMB resp ts form
        = mkReject "Unsupported file type. Please upload PDF/DOC/DOCX.") ∧
    (pyLower (pySuffix resume.filename) ∈ ALLOWED_EXTENSIONS →
      apply secret maxUploadMB resp ts form = applyPersist ts form resume) ∧
    pyLower (pySuffix "cv.PDF") = ".pdf" ∧ ".pdf" ∈ ALLOWED_EXTENSIONS := by
  rw [apply_valid_step secret maxUploadMB resp ts form resume hr hm hv]
  have hle := Nat.not_lt.mpr hs
  refine ⟨?_, ?_, by decide, by decide⟩
  · intro hext
    simp [applySizeCheck, hle, applyExtCheck, hext]
  · intro hext
    simp [applySizeCheck, hle, applyExtCheck, hext]

theorem bad_extension_rejection_witness :
    apply "" 15 none "ts" (formWith ⟨"cv.exe", [1]⟩)
      = mkReject "Unsupported file type. Please upload PDF/DOC/DOCX." ∧
    apply "" 15 none "ts" (formWith ⟨"cv.PDF", [1]⟩)
      = applyPersist "ts" (formWith ⟨"cv.PDF", [1]⟩) ⟨"cv.PDF", [1]⟩ := by
  constructor
  · exact (bad_extension_rejection "" 15 none "ts"
      (formWith ⟨"cv.exe", [1]⟩) ⟨"cv.exe", [1]⟩ rfl (by decide) (by decide)
      (by decide)).1 (by decide)
  · exact (bad_extension_rejection "" 15 none "ts"
      (formWith ⟨"cv.PDF", [1]⟩) ⟨"cv.PDF", [1]⟩ rfl (by decide) (by decide)
      (by decide)).2.1 (by decide)

/-- Claim C9 fails as stated: a required field holding only whitespace
is NOT treated as missing — `apply` performs no trimming on required
fields (`not form.get(k)` only catches absent or empty strings), so a
submission whose `name` is a single space is accepted with HTTP 200. -/
theorem whitespace_field_accepted_counterexample :
    (apply "" 15 none "ts"
      { fields := [("name", " "), ("email", "a@x.com"), ("phone", "123"),
                   ("location", "Berlin"), ("start_date", "2024-01-01"),
                   ("visa", "yes")]
        resume := some ⟨"cv.pdf", [1, 2, 3]⟩
        expertise := [] }).status = 200 := by decide

/-- Claim C9 amended: a required field that is present with a non-empty
value — including a value consisting only of whitespace — is never
counted as missing; only absent or empty-string fields are.  (The code
does not trim required fields before the emptiness test.) -/
theorem whitespace_field_not_missing (form : Form) (k v : String)
    (hk : k ∈ requiredFields) (hval : formGet form.fields k = some v)
    (hne : v ≠ "") (_hws : ∀ c ∈ v.data, c = ' ') :
    k ∉ missingOf form := by
  intro hmem
  rcases (mem_missingOf form k).mp hmem with ⟨_, hempty⟩ | ⟨hk', _⟩
  · rw [hval] at hempty
    exact hne hempty
  · subst hk'
    revert hk
    decide

theorem whitespace_field_not_missing_witness :
    "name" ∉ missingOf
      { fields := [("name", " "), ("email", "a@x.com")]
        resume := none, expertise := [] } :=
  whitespace_field_not_missing
    { fields := [("name", " "), ("email", "a@x.com")]
      resume := none, expertise := [] }
    "name" " " (by decide) (by decide) (by decide) (by decide)

/-! ## Claim C10: only the final dot-suffix decides the extension check -/

theorem takeWhile_eq_self_of_all_pos {α : Type} (p : α → Bool)
    (l : List α) (h : ∀ a ∈ l, p a = true) : l.takeWhile p = l := by
  induction l with
  | nil => rfl
  | cons a l ih =>
    simp [List.takeWhile_cons, h a (by simp),
      ih fun b hb => h b (by simp [hb])]

theorem dropWhile_eq_self_of_all_neg {α : Type} (p : α → Bool)
    (l : List α) (h : ∀ a ∈ l, p a = false) : l.dropWhile p = l := by
  cases l with
  | nil => rfl
  | cons a l => simp [List.dropWhile_cons, h a (by simp)]

theorem takeWhile_dropWhile_append_stop {α : Type} (p : α → Bool)
    (A B : List α) (b : α) (hA : ∀ a ∈ A, p a = true) (hb : p b = false) :
    (A ++ b :: B).takeWhile p = A ∧ (A ++ b :: B).dropWhile p = b :: B := by
  induction A with
  | nil => simp [List.takeWhile_cons, List.dropWhile_cons, hb]
  | cons a A ih =>
    have ha : p a = true := hA a (by simp)
    have ih' := ih fun x hx => hA x (by simp [hx])
    simp [List.takeWhile_cons, List.dropWhile_cons, ha, ih'.1, ih'.2]

theorem data_ne_nil_of_ne_empty (t : String) (h : t ≠ "") :
    t.data ≠ [] := by
  intro hnil
  apply h
  cases t with
  | mk data =>
    simp only at hnil
    subst hnil
    rfl

/-- `Path(p).name = p` for a non-empty path with no separator. -/
theorem pathName_of_no_slash (p : String) (h : ∀ c ∈ p.data, ¬c = '/') :
    pathName p = p := by
  unfold pathName
  have h1 : (p.data.reverse).dropWhile (fun c => c == '/')
      = p.data.reverse := by
    refine dropWhile_eq_self_of_all_neg _ _ fun a ha => ?_
    simpa using h a (List.mem_reverse.mp ha)
  have h2 : (p.data.reverse).takeWhile (fun c => c != '/')
      = p.data.reverse := by
    refine takeWhile_eq_self_of_all_pos _ _ fun a ha => ?_
    simpa using h a (List.mem_reverse.mp ha)
  rw [h1, h2, List.reverse_reverse]

/-- Core of claim C10 for a bare file name: the suffix of
`stem ++ "." ++ ext` (dot-free non-empty `ext`, non-empty `stem`) is
exactly `"." ++ ext` — whatever dots `stem` itself contains. -/
theorem suffixOfName_stem_ext (s t : String) (hs : s ≠ "") (ht : t ≠ "")
    (hdot : ∀ c ∈ t.data, ¬c = '.') :
    suffixOfName (s ++ "." ++ t) = "." ++ t := by
  have hdata : (s ++ "." ++ t).data = s.data ++ '.' :: t.data := by
    rw [String.data_append, String.data_append, List.append_assoc]
    rfl
  have hrev : (s ++ "." ++ t).data.reverse
      = t.data.reverse ++ '.' :: s.data.reverse := by
    rw [hdata, List.reverse_append, List.reverse_cons, List.append_assoc]
    rfl
  have hstop := takeWhile_dropWhile_append_stop (fun c => c != '.')
    t.data.reverse s.data.reverse '.'
    (fun a ha => by simpa using hdot a (List.mem_reverse.mp ha))
    (by simp)
  have hsd : s.data ≠ [] := data_ne_nil_of_ne_empty s hs
  have htd : t.data ≠ [] := data_ne_nil_of_ne_empty t ht
  unfold suffixOfName
  have hcond : ¬('.' :: s.data.reverse = [] ∨ t.data.reverse = []
      ∨ ('.' :: s.data.reverse).length = 1) := by
    intro hor
    rcases hor with h1 | h2 | h3
    · exact List.cons_ne_nil _ _ h1
    · exact htd (by simpa using h2)
    · have hz : s.data.reverse.length = 0 := by simpa using h3
      exact hsd (List.reverse_eq_nil_iff.mp (List.length_eq_zero.mp hz))
  rw [hrev, hstop.1, hstop.2]
  rw [if_neg hcond]
  rw [List.reverse_reverse]
  apply String.ext
  rw [String.data_append]
  rfl

/-- Claim C10: the extension check inspects only the final dot-suffix
of the filename — for `stem ++ "." ++ ext` only `ext` decides, so
`a.exe.pdf` passes the check while `a.pdf.exe` is rejected; and a
filename that is just `.pdf` has an empty suffix and is rejected. -/
theorem only_final_suffix_decides :
    (∀ s t : String, s ≠ "" → t ≠ "" →
      (∀ c ∈ s.data, ¬c = '/') →
      (∀ c ∈ t.data, ¬c = '.' ∧ ¬c = '/') →
      pySuffix (s ++ "." ++ t) = "." ++ t) ∧
    pyLower (pySuffix "a.exe.pdf") ∈ ALLOWED_EXTENSIONS ∧
    pyLower (pySuffix "a.pdf.exe") ∉ ALLOWED_EXTENSIONS ∧
    pySuffix ".pdf" = "" ∧ "" ∉ ALLOWED_EXTENSIONS ∧
    apply "" 15 none "ts" (formWith ⟨"a.exe.pdf", [1]⟩)
      = applyPersist "ts" (formWith ⟨"a.exe.pdf", [1]⟩) ⟨"a.exe.pdf", [1]⟩ ∧
    apply "" 15 none "ts" (formWith ⟨"a.pdf.exe", [1]⟩)
      = mkReject "Unsupported file type. Please upload PDF/DOC/DOCX." ∧
    apply "" 15 none "ts" (formWith ⟨".pdf", [1]⟩)
      = mkReject "Unsupported file type. Please upload PDF/DOC/DOCX." := by
  refine ⟨?_, by decide, by decide, by decide, by decide,
    by decide, by decide, by decide⟩
  intro s t hs ht hslash hboth
  have hdata : (s ++ "." ++ t).data = s.data ++ '.' :: t.data := by
    rw [String.data_append, String.data_append, List.append_assoc]
    rfl
  have hname : pathName (s ++ "." ++ t) = s ++ "." ++ t := by
    refine pathName_of_no_slash _ fun c hc => ?_
    rw [hdata] at hc
    rcases List.mem_append.mp hc with hcs | hct
    · exact hslash c hcs
    · rcases List.mem_cons.mp hct with hdotc | hctt
      · subst hdotc; decide
      · exact (hboth c hctt).2
  unfold pySuffix
  rw [hname]
  exact suffixOfName_stem_ext s t hs ht fun c hc => (hboth c hc).1

theorem only_final_suffix_decides_witness :
    pySuffix ("a.exe" ++ "." ++ "pdf") = "." ++ "pdf" :=
  only_final_suffix_decides.1 "a.exe" "pdf" (by decide) (by decide)
    (by decide) (by decide)

end Kedorion
